import Mathlib

/-!
Shallow embedding of the SpeeduinoR4 SLCAN USB-to-CAN gateway firmware.

The definitions below translate the C++ sources:
  * `lib/SLCAN/SLCAN.cpp` / `SLCAN.h` / `SLCANCommands.h` (protocol handler),
  * `lib/CANBackend/RA4M1CAN.cpp` / `CANBackend.h` (controller adapter),
  * `lib/Transport/SerialTransport.cpp` / `Transport.h` (byte-stream transport),
  * `include/config.h` (configuration constants),
  * `src/main.cpp` (loop wiring).

Machine integers are modelled as `Nat` with explicit `% 2^w` where the C code
can overflow; C `char*` strings become `List Char` (the sources only ever walk
them with `strlen`/indexing below the checked length).  The hardware library
(`Arduino_CAN`, the USB CDC `Stream`) sits beyond the capability boundary and
is modelled by explicit oracles: lists of results its calls would return.
-/

namespace SpeeduinoR4

/-! ### Configuration constants (include/config.h, lib/SLCAN/SLCANCommands.h) -/

def FIRMWARE_VERSION_MAJOR : Nat := 1
def FIRMWARE_VERSION_MINOR : Nat := 2
def CMD_BUFFER_SIZE : Nat := 64
def RESPONSE_BUFFER_SIZE : Nat := 64
def SERIAL_RX_BUFFER_SIZE : Nat := 256
def SERIAL_CMD_QUEUE_SIZE : Nat := 4
def MAX_CMDS_PER_LOOP : Nat := 4
def CAN_RX_QUEUE_SIZE : Nat := 128
def MAX_FRAMES_PER_POLL : Nat := 6
def CAN_TX_QUEUE_SIZE : Nat := 24

def SLCAN_STD_ID_LEN : Nat := 3
def SLCAN_EXT_ID_LEN : Nat := 8
def SLCAN_DLC_LEN : Nat := 1
def SLCAN_TIMESTAMP_LEN : Nat := 4

/-- `SLCAN_ERROR` = `'\x07'` (BELL). -/
def SLCAN_ERROR : Char := Char.ofNat 7

/-! ### Hex helpers (SLCAN.cpp) -/

/-- `SLCAN::hexCharToNibble` -/
def hexCharToNibble (c : Char) : Nat :=
  if '0' ≤ c ∧ c ≤ '9' then c.toNat - '0'.toNat
  else if 'A' ≤ c ∧ c ≤ 'F' then c.toNat - 'A'.toNat + 10
  else if 'a' ≤ c ∧ c ≤ 'f' then c.toNat - 'a'.toNat + 10
  else 0

/-- `SLCAN::nibbleToHexChar` (the source first masks with `0x0F`). -/
def nibbleToHexChar (n : Nat) : Char :=
  let m := n &&& 0x0F
  if m < 10 then Char.ofNat ('0'.toNat + m) else Char.ofNat ('A'.toNat + m - 10)

/-- `SLCAN::isHexChar` -/
def isHexChar (c : Char) : Bool :=
  ('0' ≤ c ∧ c ≤ '9') ∨ ('A' ≤ c ∧ c ≤ 'F') ∨ ('a' ≤ c ∧ c ≤ 'f')

/-- `SLCAN::parseHex`: `value = (value << 4) | hexCharToNibble(str[i])` on a
`uint32_t` accumulator. -/
def parseHex (s : List Char) : Nat :=
  s.foldl (fun v c => ((v <<< 4) ||| hexCharToNibble c) % 2 ^ 32) 0

/-- `SLCAN::formatHex`: writes `digits` hex characters, most significant
first (`buffer[i-1] = nibbleToHexChar(value & 0x0F); value >>= 4`). -/
def formatHex (value : Nat) (digits : Nat) : List Char :=
  match digits with
  | 0 => []
  | d + 1 => formatHex (value >>> 4) d ++ [nibbleToHexChar (value &&& 0x0F)]

/-! ### Frame model (CANBackend.h `struct CANFrame`) -/

/-- `CANFrame`.  `data` always has length 8 for frames built by this code
(the C++ field is `uint8_t data[8]`). -/
structure CANFrame where
  id : Nat
  dlc : Nat
  data : List Nat
  extended : Bool
  rtr : Bool
  timestamp : Nat
deriving Repr, DecidableEq

/-- The `CANFrame()` default constructor: everything zeroed. -/
def CANFrame.zero : CANFrame :=
  { id := 0, dlc := 0, data := List.replicate 8 0
  , extended := false, rtr := false, timestamp := 0 }

/-! ### Frame parsing (SLCAN.cpp `SLCAN::parseFrame`) -/

/-- The data-byte loop of `parseFrame`: for each of `n` bytes read two hex
characters, `data[i] = (hi << 4) | lo`, rejecting non-hex characters.
Runs after the explicit `strlen(dataStr) < expectedDataLen` check. -/
def parseDataBytes (s : List Char) (n : Nat) : Option (List Nat) :=
  match n, s with
  | 0, _ => some []
  | n + 1, hi :: lo :: rest =>
    if isHexChar hi ∧ isHexChar lo then
      (parseDataBytes rest n).map
        (fun bs => ((hexCharToNibble hi <<< 4) ||| hexCharToNibble lo) :: bs)
    else none
  | _ + 1, _ => none

/-- `SLCAN::parseFrame`.  Returns `none` where the C++ returns `false`.
The C++ output frame is default-constructed, so the `rtr` case leaves the
data bytes and timestamp at zero. -/
def parseFrame (cmd : List Char) (extended rtr : Bool) : Option CANFrame :=
  let idLen := if extended then SLCAN_EXT_ID_LEN else SLCAN_STD_ID_LEN
  let minLen := 1 + idLen + SLCAN_DLC_LEN
  if cmd.length < minLen then none
  else
    let idStr := (cmd.drop 1).take idLen
    if ¬ idStr.all isHexChar then none
    else
      let id := parseHex idStr
      if ¬ extended ∧ id > 0x7FF then none
      else if extended ∧ id > 0x1FFFFFFF then none
      else
        match (cmd.drop (1 + idLen)) with
        | [] => none
        | dc :: rest =>
          if ¬ isHexChar dc then none
          else
            let dlc := hexCharToNibble dc
            if dlc > 8 then none
            else if rtr then
              some { id := id, dlc := dlc, data := List.replicate 8 0
                   , extended := extended, rtr := rtr, timestamp := 0 }
            else if rest.length < dlc * 2 then none
            else
              match parseDataBytes rest dlc with
              | none => none
              | some bytes =>
                some { id := id, dlc := dlc
                     , data := bytes ++ List.replicate (8 - dlc) 0
                     , extended := extended, rtr := rtr, timestamp := 0 }

/-! ### Frame formatting (SLCAN.cpp `SLCAN::formatFrame`) -/

/-- The data-byte loop of `formatFrame`:
`for (i = 0; i < dlc && pos + 2 < maxLen; i++)` writing
`nibbleToHexChar((data[i] >> 4) & 0x0F)` then `nibbleToHexChar(data[i] & 0x0F)`. -/
def formatDataChars (data : List Nat) (dlc pos maxLen : Nat) : List Char :=
  match data, dlc with
  | b :: rest, d + 1 =>
    if pos + 2 < maxLen then
      nibbleToHexChar ((b >>> 4) &&& 0x0F) :: nibbleToHexChar (b &&& 0x0F) ::
        formatDataChars rest d (pos + 2) maxLen
    else []
  | _, _ => []

/-- `SLCAN::formatFrame`.  Returns `none` where the C++ returns length 0;
otherwise the returned list is the `pos` characters written into the buffer
(the trailing `'\0'` is not part of the returned length). -/
def formatFrame (timestampEnabled : Bool) (f : CANFrame) (maxLen : Nat) :
    Option (List Char) :=
  let cmdChar := if f.rtr then (if f.extended then 'R' else 'r')
                 else (if f.extended then 'T' else 't')
  if 0 ≥ maxLen then none
  else
    let idDigits := if f.extended then SLCAN_EXT_ID_LEN else SLCAN_STD_ID_LEN
    if 1 + idDigits ≥ maxLen then none
    else
      let dataChars := if f.rtr then []
                       else formatDataChars f.data f.dlc (2 + idDigits) maxLen
      let pos := 2 + idDigits + dataChars.length
      let tsChars := if timestampEnabled ∧ pos + SLCAN_TIMESTAMP_LEN < maxLen
                     then formatHex f.timestamp SLCAN_TIMESTAMP_LEN else []
      some (cmdChar :: formatHex f.id idDigits ++ [nibbleToHexChar f.dlc]
              ++ dataChars ++ tsChars)

/-! ### Controller adapter (RA4M1CAN.cpp) -/

/-- `CANMode` (CANBackend.h). -/
inductive CANMode where
  | Normal
  | ListenOnly
deriving Repr, DecidableEq

/-- The `Arduino_CAN` hardware library boundary, modelled by oracles:
`beginResults`/`writeResults` list the outcomes of successive `CAN.begin` /
`CAN.write` calls (`true` = success / `rc >= 0`); an exhausted oracle is read
as failure (hardware busy).  `rxFrames` are the frames pending in the
hardware receive FIFO (`CAN.available` / `CAN.read`), and `txLog` records
every frame a successful `CAN.write` handed to the hardware, in order. -/
structure HW where
  beginResults : List Bool
  writeResults : List Bool
  rxFrames : List CANFrame
  txLog : List CANFrame
deriving Repr, DecidableEq

/-- One `CAN.begin(...)` call against the oracle. -/
def HW.beginCall (hw : HW) : Bool × HW :=
  match hw.beginResults with
  | [] => (false, hw)
  | r :: rest => (r, { hw with beginResults := rest })

/-- One `CAN.write(msg)` call against the oracle (`true` iff `rc >= 0`). -/
def HW.writeCall (hw : HW) (f : CANFrame) : Bool × HW :=
  match hw.writeResults with
  | [] => (false, hw)
  | r :: rest =>
    (r, { hw with
          writeResults := rest,
          txLog := if r then hw.txLog ++ [f] else hw.txLog })

/-- The `RA4M1CAN` member state. `txQueue` is the `CANFrame[CAN_TX_QUEUE_SIZE]`
array (length `CAN_TX_QUEUE_SIZE`, default-constructed slots). -/
structure RA4M1CANState where
  isOpen : Bool
  mode : CANMode
  bitrate : Nat
  filterMask : Nat
  filterValue : Nat
  filterEnabled : Bool
  txQueue : List CANFrame
  txQueueHead : Nat
  txQueueTail : Nat
  txQueueCount : Nat
  txQueueFullCount : Nat
deriving Repr, DecidableEq

namespace RA4M1CAN

/-- The `RA4M1CAN()` constructor. -/
def init : RA4M1CANState :=
  { isOpen := false, mode := .Normal, bitrate := 6
  , filterMask := 0, filterValue := 0, filterEnabled := false
  , txQueue := List.replicate CAN_TX_QUEUE_SIZE CANFrame.zero
  , txQueueHead := 0, txQueueTail := 0, txQueueCount := 0
  , txQueueFullCount := 0 }

/-- `RA4M1CAN::isBitrateSupported` (bitrate is the `CANBitrate` enum value). -/
def isBitrateSupported (bitrate : Nat) : Bool :=
  bitrate = 4 ∨ bitrate = 5 ∨ bitrate = 6 ∨ bitrate = 8

/-- `RA4M1CAN::clearTxQueue` -/
def clearTxQueue (s : RA4M1CANState) : RA4M1CANState :=
  { s with txQueueHead := 0, txQueueTail := 0, txQueueCount := 0 }

/-- `RA4M1CAN::end` (named `endCan` here; `end` is reserved in Lean). -/
def endCan (s : RA4M1CANState) : RA4M1CANState :=
  clearTxQueue (if s.isOpen then { s with isOpen := false } else s)

/-- `RA4M1CAN::begin` -/
def begin (s : RA4M1CANState) (hw : HW) (bitrate : Nat) (mode : CANMode) :
    Bool × RA4M1CANState × HW :=
  if ¬ isBitrateSupported bitrate then (false, s, hw)
  else
    let s := clearTxQueue s
    let s := if s.isOpen then endCan s else s
    let (ok, hw) := hw.beginCall
    if ¬ ok then (false, s, hw)
    else (true, { s with isOpen := true, mode := mode, bitrate := bitrate }, hw)

/-- `RA4M1CAN::write` -/
def write (s : RA4M1CANState) (hw : HW) (f : CANFrame) :
    Bool × RA4M1CANState × HW :=
  if ¬ s.isOpen then (false, s, hw)
  else if s.mode = .ListenOnly then (false, s, hw)
  else
    let tryNow := s.txQueueCount = 0
    let (sentNow, hw) := if tryNow then hw.writeCall f else (false, hw)
    if tryNow ∧ sentNow then (true, s, hw)
    else if s.txQueueCount < CAN_TX_QUEUE_SIZE then
      (true, { s with
               txQueue := s.txQueue.set s.txQueueHead f,
               txQueueHead := (s.txQueueHead + 1) % CAN_TX_QUEUE_SIZE,
               txQueueCount := s.txQueueCount + 1 }, hw)
    else (false, { s with txQueueFullCount := s.txQueueFullCount + 1 }, hw)

/-- `RA4M1CAN::available` -/
def available (s : RA4M1CANState) (hw : HW) : Bool :=
  s.isOpen ∧ hw.rxFrames ≠ []

/-- `RA4M1CAN::passesFilter` -/
def passesFilter (s : RA4M1CANState) (id : Nat) : Bool :=
  if ¬ s.filterEnabled then true
  else (id &&& s.filterMask) = (s.filterValue &&& s.filterMask)

/-- `RA4M1CAN::read`: pops one `CanMsg` from the hardware FIFO, fills the
frame (rtr forced false, bytes beyond dlc zeroed, timestamp stamped from
`millis() & 0xFFFF`, here the parameter `now`), then applies the software
filter — a filtered-out frame is consumed but reported as `none`. -/
def read (s : RA4M1CANState) (hw : HW) (now : Nat) :
    Option CANFrame × HW :=
  if ¬ s.isOpen then (none, hw)
  else
    match hw.rxFrames with
    | [] => (none, hw)
    | msg :: rest =>
      let hw := { hw with rxFrames := rest }
      let f : CANFrame :=
        { id := msg.id, dlc := msg.dlc
        , data := (msg.data.take msg.dlc) ++ List.replicate (8 - msg.dlc) 0
        , extended := msg.extended, rtr := false
        , timestamp := now % 2 ^ 16 }
      if s.filterEnabled ∧ ¬ passesFilter s f.id then (none, hw)
      else (some f, hw)

/-- `RA4M1CAN::setFilter` (always returns `true`, so only the state matters). -/
def setFilter (s : RA4M1CANState) (mask filter : Nat) : RA4M1CANState :=
  { s with filterMask := mask, filterValue := filter, filterEnabled := true }

/-- `RA4M1CAN::clearFilter` -/
def clearFilter (s : RA4M1CANState) : RA4M1CANState :=
  { s with filterMask := 0, filterValue := 0, filterEnabled := false }

/-- The drain loop of `RA4M1CAN::serviceTxQueue`:
`while (_txQueueCount > 0)` read `_txQueue[_txQueueTail]`, attempt
`CAN.write`; on success advance the tail and decrement the count, on
failure stop.  Returns the new tail, new count, hardware state, and the
frames sent this call, in order. -/
def serviceTxAux (arr : List CANFrame) (tl : Nat) (cnt : Nat) (hw : HW) :
    Nat × Nat × HW × List CANFrame :=
  match cnt with
  | 0 => (tl, 0, hw, [])
  | c + 1 =>
    let f := arr.getD tl CANFrame.zero
    let res := hw.writeCall f
    if res.1 then
      let r := serviceTxAux arr ((tl + 1) % CAN_TX_QUEUE_SIZE) c res.2
      (r.1, r.2.1, r.2.2.1, f :: r.2.2.2)
    else (tl, c + 1, res.2, [])

/-- `RA4M1CAN::serviceTxQueue`.  Also returns the frames handed to the
hardware this call, in order. -/
def serviceTxQueue (s : RA4M1CANState) (hw : HW) :
    RA4M1CANState × HW × List CANFrame :=
  if ¬ s.isOpen then (s, hw, [])
  else
    let (tl', cnt', hw', sent) :=
      serviceTxAux s.txQueue s.txQueueTail s.txQueueCount hw
    ({ s with txQueueTail := tl', txQueueCount := cnt' }, hw', sent)

/-- The `cnt` circular-buffer slots of `arr` starting at index `tl`, in
order. -/
def queueSeg (arr : List CANFrame) (tl cnt : Nat) : List CANFrame :=
  (List.range cnt).map
    (fun i => arr.getD ((tl + i) % CAN_TX_QUEUE_SIZE) CANFrame.zero)

/-- Logical content of the software transmit queue, oldest first: the
`txQueueCount` slots starting at `txQueueTail` (circular). -/
def txQueueFrames (s : RA4M1CANState) : List CANFrame :=
  queueSeg s.txQueue s.txQueueTail s.txQueueCount

/-- Well-formedness of the circular transmit queue, as maintained by the
constructor and every queue operation. -/
def TxWF (s : RA4M1CANState) : Prop :=
  s.txQueue.length = CAN_TX_QUEUE_SIZE ∧
  s.txQueueCount ≤ CAN_TX_QUEUE_SIZE ∧
  s.txQueueTail < CAN_TX_QUEUE_SIZE ∧
  s.txQueueHead = (s.txQueueTail + s.txQueueCount) % CAN_TX_QUEUE_SIZE

/-- Number of initial `true`s in the hardware write oracle, capped at `n`:
how many queued frames the hardware will accept before first rejecting. -/
def leadingAccepts (results : List Bool) (n : Nat) : Nat :=
  match n, results with
  | 0, _ => 0
  | _ + 1, [] => 0
  | n + 1, b :: rest => if b then leadingAccepts rest n + 1 else 0

end RA4M1CAN

/-! ### Protocol handler (SLCAN.cpp) -/

/-- `SLCANState` (SLCAN.h). -/
inductive SLCANState where
  | Closed
  | Open
  | ListenOnly
deriving Repr, DecidableEq

/-- A `FrameSlot` of the receive ring (SLCAN.h). -/
structure FrameSlot where
  msg : CANFrame
  timestamp : Nat
  valid : Bool
deriving Repr, DecidableEq

def FrameSlot.empty : FrameSlot :=
  { msg := CANFrame.zero, timestamp := 0, valid := false }

/-- The `SLCAN` handler state combined with its backend and the hardware
oracle.  `canWriteLog` is instrumentation: it records every frame the
handler passes to `ICANBackend::write`, in order. -/
structure SysState where
  state : SLCANState
  configuredBitrate : Nat
  timestampEnabled : Bool
  autoForward : Bool
  filterMask : Nat
  filterCode : Nat
  rxQueue : List FrameSlot
  rxHead : Nat
  rxTail : Nat
  rxOverflowCount : Nat
  canRxDropCount : Nat
  can : RA4M1CANState
  hw : HW
  canWriteLog : List CANFrame
deriving Repr, DecidableEq

namespace SLCAN

/-- The `SLCAN(ICANBackend&)` constructor (state only; the backend object
and hardware oracle are supplied by the caller). -/
def init (can : RA4M1CANState) (hw : HW) : SysState :=
  { state := .Closed, configuredBitrate := 6
  , timestampEnabled := false, autoForward := true
  , filterMask := 0, filterCode := 0
  , rxQueue := List.replicate CAN_RX_QUEUE_SIZE FrameSlot.empty
  , rxHead := 0, rxTail := 0
  , rxOverflowCount := 0, canRxDropCount := 0
  , can := can, hw := hw, canWriteLog := [] }

/-- `SLCAN::setError`: the response becomes the single BELL character. -/
def setError : List Char := [SLCAN_ERROR]

/-- `SLCAN::setOk`: the response becomes the empty string. -/
def setOk : List Char := []

/-- `SLCAN::canHandle` -/
def canHandle (cmd : List Char) : Bool :=
  match cmd with
  | [] => false
  | c :: _ =>
    c = 'S' ∨ c = 's' ∨ c = 'O' ∨ c = 'L' ∨ c = 'C' ∨
    c = 't' ∨ c = 'T' ∨ c = 'r' ∨ c = 'R' ∨
    c = 'F' ∨ c = 'V' ∨ c = 'N' ∨ c = 'Z' ∨ c = 'M' ∨ c = 'm'

/-- `SLCAN::handleSetup` -/
def handleSetup (cmd : List Char) (s : SysState) : List Char × SysState :=
  if cmd.length < 2 then (setError, s)
  else
    let bitrateChar := cmd.getD 1 ' '
    if bitrateChar < '0' ∨ bitrateChar > '8' then (setError, s)
    else
      let bitrate := bitrateChar.toNat - '0'.toNat
      if ¬ RA4M1CAN.isBitrateSupported bitrate then (setError, s)
      else if s.state ≠ .Closed then (setError, s)
      else (setOk, { s with configuredBitrate := bitrate })

/-- `SLCAN::handleOpen` -/
def handleOpen (s : SysState) : List Char × SysState :=
  if s.state ≠ .Closed then (setError, s)
  else
    let (ok, can, hw) := RA4M1CAN.begin s.can s.hw s.configuredBitrate .Normal
    if ¬ ok then (setError, { s with can := can, hw := hw })
    else
      let can := if s.filterMask ≠ 0
                 then RA4M1CAN.setFilter can s.filterMask s.filterCode else can
      (setOk, { s with state := .Open, can := can, hw := hw })

/-- `SLCAN::handleListen` -/
def handleListen (s : SysState) : List Char × SysState :=
  if s.state ≠ .Closed then (setError, s)
  else
    let (ok, can, hw) := RA4M1CAN.begin s.can s.hw s.configuredBitrate .ListenOnly
    if ¬ ok then (setError, { s with can := can, hw := hw })
    else
      let can := if s.filterMask ≠ 0
                 then RA4M1CAN.setFilter can s.filterMask s.filterCode else can
      (setOk, { s with state := .ListenOnly, can := can, hw := hw })

/-- `SLCAN::handleClose` -/
def handleClose (s : SysState) : List Char × SysState :=
  if s.state = .Closed then (setOk, s)
  else (setOk, { s with can := RA4M1CAN.endCan s.can, state := .Closed })

/-- Common body of the four `SLCAN::handleTransmit*` handlers: they differ
only in the `(extended, rtr)` flags passed to `parseFrame` and in the
acknowledgement character. -/
def handleTransmit (cmd : List Char) (s : SysState)
    (extended rtr : Bool) (ack : Char) : List Char × SysState :=
  if s.state ≠ .Open then (setError, s)
  else
    match parseFrame cmd extended rtr with
    | none => (setError, s)
    | some frame =>
      let (ok, can, hw) := RA4M1CAN.write s.can s.hw frame
      let s := { s with
                 can := can, hw := hw,
                 canWriteLog := s.canWriteLog ++ [frame] }
      if ¬ ok then (setError, s) else ([ack], s)

/-- `SLCAN::handleStatus`.  `RA4M1CAN::getStatus` reports every flag clear
(the Arduino_CAN library exposes no telemetry), so all bits are zero. -/
def handleStatus (s : SysState) : List Char × SysState :=
  let flags := 0
  (['F', nibbleToHexChar ((flags >>> 4) &&& 0x0F), nibbleToHexChar (flags &&& 0x0F)], s)

/-- `SLCAN::handleVersion` -/
def handleVersion (s : SysState) : List Char × SysState :=
  (['V', nibbleToHexChar ((FIRMWARE_VERSION_MAJOR >>> 4) &&& 0x0F)
      , nibbleToHexChar (FIRMWARE_VERSION_MAJOR &&& 0x0F)
      , nibbleToHexChar ((FIRMWARE_VERSION_MINOR >>> 4) &&& 0x0F)
      , nibbleToHexChar (FIRMWARE_VERSION_MINOR &&& 0x0F)], s)

/-- `SLCAN::handleSerial` -/
def handleSerial (s : SysState) : List Char × SysState :=
  (['N', 'S', 'C', 'A', 'N'], s)

/-- `SLCAN::handleTimestamp` -/
def handleTimestamp (cmd : List Char) (s : SysState) : List Char × SysState :=
  if cmd.length < 2 then (setError, s)
  else
    let val := cmd.getD 1 ' '
    if val = '0' then (setOk, { s with timestampEnabled := false })
    else if val = '1' then (setOk, { s with timestampEnabled := true })
    else (setError, s)

/-- `SLCAN::handleFilterMask` -/
def handleFilterMask (cmd : List Char) (s : SysState) : List Char × SysState :=
  if cmd.length < 9 then (setError, s)
  else if ¬ ((cmd.drop 1).take 8).all isHexChar then (setError, s)
  else
    let mask := parseHex ((cmd.drop 1).take 8)
    let s := { s with filterMask := mask }
    let s := if s.state ≠ .Closed
             then { s with can := RA4M1CAN.setFilter s.can s.filterMask s.filterCode }
             else s
    (setOk, s)

/-- `SLCAN::handleFilterCode` -/
def handleFilterCode (cmd : List Char) (s : SysState) : List Char × SysState :=
  if cmd.length < 9 then (setError, s)
  else if ¬ ((cmd.drop 1).take 8).all isHexChar then (setError, s)
  else
    let code := parseHex ((cmd.drop 1).take 8)
    let s := { s with filterCode := code }
    let s := if s.state ≠ .Closed
             then { s with can := RA4M1CAN.setFilter s.can s.filterMask s.filterCode }
             else s
    (setOk, s)

/-- `SLCAN::processCommand`.  Returns `none` where the C++ returns `false`
(no response generated); otherwise `some response`.  Reading `cmd[0]` of an
empty C string yields `'\0'`, which falls to the `default` branch. -/
def processCommand (maxLen : Nat) (cmd : List Char) (s : SysState) :
    Option (List Char) × SysState :=
  if maxLen < 2 then (none, s)
  else
    let cmdChar := cmd.headD (Char.ofNat 0)
    if cmdChar = 'S' then let (r, s) := handleSetup cmd s; (some r, s)
    else if cmdChar = 's' then (some setError, s)
    else if cmdChar = 'O' then let (r, s) := handleOpen s; (some r, s)
    else if cmdChar = 'L' then let (r, s) := handleListen s; (some r, s)
    else if cmdChar = 'C' then let (r, s) := handleClose s; (some r, s)
    else if cmdChar = 't' then let (r, s) := handleTransmit cmd s false false 'z'; (some r, s)
    else if cmdChar = 'T' then let (r, s) := handleTransmit cmd s true false 'Z'; (some r, s)
    else if cmdChar = 'r' then let (r, s) := handleTransmit cmd s false true 'z'; (some r, s)
    else if cmdChar = 'R' then let (r, s) := handleTransmit cmd s true true 'Z'; (some r, s)
    else if cmdChar = 'F' then let (r, s) := handleStatus s; (some r, s)
    else if cmdChar = 'V' then let (r, s) := handleVersion s; (some r, s)
    else if cmdChar = 'N' then let (r, s) := handleSerial s; (some r, s)
    else if cmdChar = 'Z' then let (r, s) := handleTimestamp cmd s; (some r, s)
    else if cmdChar = 'M' then let (r, s) := handleFilterMask cmd s; (some r, s)
    else if cmdChar = 'm' then let (r, s) := handleFilterCode cmd s; (some r, s)
    else (some setError, s)

/-- `SLCAN::drainFromBackend`: `while (_can.available())` enqueue frames
into the receive ring; when the ring is full, count an overflow and stop
without reading the incoming frame; when `_can.read` reports no frame
(filtered out), stop.  `now` models `millis()`. -/
def drainFromBackend (s : SysState) (now : Nat) : SysState :=
  if RA4M1CAN.available s.can s.hw then
    let nextHead := (s.rxHead + 1) % CAN_RX_QUEUE_SIZE
    if nextHead = s.rxTail then
      { s with rxOverflowCount := s.rxOverflowCount + 1 }
    else
      match h : RA4M1CAN.read s.can s.hw now with
      | (some msg, hw) =>
        drainFromBackend
          { s with
            rxQueue := s.rxQueue.set s.rxHead
                         { msg := msg, timestamp := now % 2 ^ 16, valid := true },
            rxHead := nextHead, hw := hw } now
      | (none, hw) => { s with hw := hw }
  else s
termination_by s.hw.rxFrames.length
decreasing_by
  simp only [RA4M1CAN.read] at h
  split at h
  · simp at h
  · split at h
    · simp at h
    · rename_i msg' rest hrx
      split at h
      · simp at h
      · simp only [Prod.mk.injEq] at h
        obtain ⟨-, h2⟩ := h
        simp [← h2, hrx]

/-- `SLCAN::getNextRxFrame` -/
def getNextRxFrame (s : SysState) : Option (CANFrame × Nat) × SysState :=
  if s.rxTail = s.rxHead then (none, s)
  else
    let slot := s.rxQueue.getD s.rxTail FrameSlot.empty
    (some (slot.msg, slot.timestamp),
     { s with
       rxQueue := s.rxQueue.set s.rxTail { slot with valid := false },
       rxTail := (s.rxTail + 1) % CAN_RX_QUEUE_SIZE })

end SLCAN

/-! ### Byte-stream transport (SerialTransport.cpp) -/

/-- `WritePriority` (Transport.h). -/
inductive WritePriority where
  | COMMAND_RESPONSE
  | CAN_RX_FRAME
deriving Repr, DecidableEq

/-- A `CommandSlot` of the transport's command queue.  The C++ slot is a
256-byte array plus a length; `buffer` here is the first `length` stored
characters. -/
structure CommandSlot where
  buffer : List Char
  length : Nat
  valid : Bool
deriving Repr, DecidableEq

def CommandSlot.empty : CommandSlot :=
  { buffer := [], length := 0, valid := false }

/-- `SerialTransport` member state.  `serialIn` are the bytes pending in the
underlying `Stream`'s receive buffer (`_serial.available`/`_serial.read`);
`rxAccumulator` is the logical content of `_rxAccumulator[0.._rxAccIndex)`. -/
structure TransportState where
  serialIn : List Char
  cmdQueue : List CommandSlot
  cmdHead : Nat
  cmdTail : Nat
  rxAccumulator : List Char
  cmdResponseDropCount : Nat
  canTxDropCount : Nat
  cmdOverflowCount : Nat
deriving Repr, DecidableEq

namespace SerialTransport

/-- The `SerialTransport` constructor (queue slots zeroed). -/
def init (serialIn : List Char) : TransportState :=
  { serialIn := serialIn
  , cmdQueue := List.replicate SERIAL_CMD_QUEUE_SIZE CommandSlot.empty
  , cmdHead := 0, cmdTail := 0, rxAccumulator := []
  , cmdResponseDropCount := 0, canTxDropCount := 0, cmdOverflowCount := 0 }

/-- `SerialTransport::processIncoming`: drain all pending serial bytes into
the line accumulator, enqueueing a command slot at each CR/LF terminator,
counting overflow (and discarding) when the queue is full, and counting
overflow (dropping the byte) when a line exceeds the accumulator. -/
def processIncoming (s : TransportState) : TransportState :=
  match hser : s.serialIn with
  | [] => s
  | c :: rest =>
    let s := { s with serialIn := rest }
    if c = Char.ofNat 13 ∨ c = Char.ofNat 10 then
      if s.rxAccumulator.length > 0 then
        let nextHead := (s.cmdHead + 1) % SERIAL_CMD_QUEUE_SIZE
        if nextHead = s.cmdTail then
          processIncoming { s with
            cmdOverflowCount := s.cmdOverflowCount + 1, rxAccumulator := [] }
        else
          processIncoming { s with
            cmdQueue := s.cmdQueue.set s.cmdHead
              { buffer := s.rxAccumulator, length := s.rxAccumulator.length
              , valid := true },
            cmdHead := nextHead, rxAccumulator := [] }
      else processIncoming s
    else
      if s.rxAccumulator.length < SERIAL_RX_BUFFER_SIZE - 1 then
        processIncoming { s with rxAccumulator := s.rxAccumulator ++ [c] }
      else
        processIncoming { s with cmdOverflowCount := s.cmdOverflowCount + 1 }
termination_by s.serialIn.length
decreasing_by all_goals simp_all

/-- `SerialTransport::readLine`: drain new input, then dequeue the oldest
complete line, copying at most `maxLen - 1` characters (the C++ then
null-terminates the destination buffer). -/
def readLine (s : TransportState) (maxLen : Nat) :
    Option (List Char) × TransportState :=
  let s := processIncoming s
  if s.cmdTail = s.cmdHead then (none, s)
  else
    let slot := s.cmdQueue.getD s.cmdTail CommandSlot.empty
    let copyLen := if slot.length ≥ maxLen then maxLen - 1 else slot.length
    (some (slot.buffer.take copyLen),
     { s with
       cmdQueue := s.cmdQueue.set s.cmdTail { slot with valid := false },
       cmdTail := (s.cmdTail + 1) % SERIAL_CMD_QUEUE_SIZE })

/-- One iteration of the busy-wait in `writeWithPriority`:
`while (availableForWrite() < len) if (millis() - start > 10) drop;`.
`readings` are the successive `(availableForWrite(), millis() - start)`
observations; `none` means the readings ran out before the loop decided
(the modelled prefix of the wait was too short to tell). -/
def waitForSpace (len : Nat) (readings : List (Int × Nat)) : Option Bool :=
  match readings with
  | [] => none
  | (avail, elapsed) :: rest =>
    if avail ≥ (len : Int) then some true
    else if elapsed > 10 then some false
    else waitForSpace len rest

/-- `SerialTransport::writeWithPriority`.  `avail0` is the first
`availableForWrite()` reading (`0` or negative means "unknown" and skips
the space check).  Returns the C++ result (`none` when the modelled wait
readings ran out), the list of payloads handed to `_serial.write` — the
code only ever passes the whole payload in one call — and the increments
of the two drop counters. -/
def writeWithPriority (avail0 : Int) (waitReadings : List (Int × Nat))
    (data : List Char) (prio : WritePriority) :
    Option Bool × List (List Char) × Nat × Nat :=
  let len := data.length
  if avail0 > 0 ∧ avail0 < (len : Int) then
    match prio with
    | .COMMAND_RESPONSE =>
      match waitForSpace len waitReadings with
      | some true => (some true, [data], 0, 0)
      | some false => (some false, [], 1, 0)
      | none => (none, [], 0, 0)
    | .CAN_RX_FRAME => (some false, [], 0, 1)
  else (some true, [data], 0, 0)

end SerialTransport

/-! ### Abstractions and concrete states used by the statements below -/

/-- Hex encoding of a byte list as written by the `formatFrame` data loop:
high nibble then low nibble of each byte. -/
def encodeBytes : List Nat → List Char
  | [] => []
  | b :: rest =>
    nibbleToHexChar ((b >>> 4) &&& 0x0F) :: nibbleToHexChar (b &&& 0x0F) ::
      encodeBytes rest

/-- Repeatedly call `SLCAN::getNextRxFrame` (up to `fuel` times), collecting
the retrieved `(frame, timestamp)` pairs in order: the observable content of
the receive ring. -/
def drainRxRing (s : SysState) (fuel : Nat) : List (CANFrame × Nat) :=
  match fuel with
  | 0 => []
  | f + 1 =>
    match SLCAN.getNextRxFrame s with
    | (none, _) => []
    | (some x, s') => x :: drainRxRing s' f

/-- A hardware oracle whose `CAN.begin` succeeds once and whose `CAN.write`
accepts one frame: the environment of the C1 happy-path scenario. -/
def hwScenario : HW :=
  { beginResults := [true], writeResults := [true], rxFrames := [], txLog := [] }

/-- A quiescent hardware oracle: nothing pending, every call fails. -/
def hwIdle : HW :=
  { beginResults := [], writeResults := [], rxFrames := [], txLog := [] }

/-- The freshly constructed system (main.cpp wiring) over the idle oracle. -/
def sysIdle : SysState := SLCAN.init RA4M1CAN.init hwIdle

/-- The freshly constructed system whose channel has been opened by `O`
against `hwScenario` (used to instantiate hypotheses about the Open state). -/
def sysOpen : SysState :=
  (SLCAN.processCommand RESPONSE_BUFFER_SIZE ['O'] (SLCAN.init RA4M1CAN.init hwScenario)).2

/-- A backend state with two frames queued in the software transmit queue
(slots 0 and 1, tail 0, head 2), as after two `write` calls on a busy
hardware FIFO. -/
def canTwoQueued : RA4M1CANState :=
  { RA4M1CAN.init with
    isOpen := true
    txQueue := (RA4M1CAN.init.txQueue.set 0 { CANFrame.zero with id := 1 }).set 1
                 { CANFrame.zero with id := 2 }
    txQueueHead := 2
    txQueueCount := 2 }

/-- The system state after processing `S6` in the C1 scenario. -/
def sysAfterS6 : SysState :=
  (SLCAN.processCommand RESPONSE_BUFFER_SIZE ['S', '6']
    (SLCAN.init RA4M1CAN.init hwScenario)).2

/-- The system state after processing `S6` then `O` in the C1 scenario. -/
def sysAfterS6O : SysState :=
  (SLCAN.processCommand RESPONSE_BUFFER_SIZE ['O'] sysAfterS6).2

/-- A concrete valid standard frame used to witness the round trip. -/
def frameW : CANFrame :=
  { id := 0x123, dlc := 2, data := [0xAB, 0xCD, 0, 0, 0, 0, 0, 0]
  , extended := false, rtr := false, timestamp := 7 }

/-- A hardware oracle that accepts one transmit and then reports busy. -/
def hwAcceptOne : HW :=
  { beginResults := [], writeResults := [true, false], rxFrames := [], txLog := [] }

/-- A system state whose 128-slot receive ring is full (tail 0, head 127)
while the open backend still has one frame pending in hardware: the C6
overflow situation. -/
def sysRingFull : SysState :=
  { SLCAN.init { RA4M1CAN.init with isOpen := true }
      { beginResults := [], writeResults := []
      , rxFrames := [{ CANFrame.zero with id := 5 }], txLog := [] } with
    rxHead := 127 }

/-- A transport state holding one queued 70-character line (70 copies of
`'A'`), with no serial bytes pending: the C10 truncation situation. -/
def transport70 : TransportState :=
  { SerialTransport.init [] with
    cmdQueue := (SerialTransport.init []).cmdQueue.set 0
      { buffer := List.replicate 70 'A', length := 70, valid := true }
    cmdHead := 1 }

/-! ## Theorems -/

/-- C1: starting from the initial Closed state, `S6` yields the empty
success response; `O` yields the empty success response and moves the
channel to Open; `t1233AABBCC` yields the acknowledgement `z`, and the frame
passed to the controller's `write` has id 0x123, dlc 3, extended false, and
data bytes AA BB CC with the remaining bytes zero. -/
theorem scenario_setup_open_transmit :
    (SLCAN.processCommand RESPONSE_BUFFER_SIZE ['S', '6']
        (SLCAN.init RA4M1CAN.init hwScenario)).1 = some SLCAN.setOk
    ∧ (SLCAN.processCommand RESPONSE_BUFFER_SIZE ['O'] sysAfterS6).1
        = some SLCAN.setOk
    ∧ sysAfterS6O.state = SLCANState.Open
    ∧ (SLCAN.processCommand RESPONSE_BUFFER_SIZE
        ['t', '1', '2', '3', '3', 'A', 'A', 'B', 'B', 'C', 'C'] sysAfterS6O).1
        = some ['z']
    ∧ (SLCAN.processCommand RESPONSE_BUFFER_SIZE
        ['t', '1', '2', '3', '3', 'A', 'A', 'B', 'B', 'C', 'C'] sysAfterS6O).2.canWriteLog
        = [{ id := 0x123, dlc := 3, data := [0xAA, 0xBB, 0xCC, 0, 0, 0, 0, 0]
           , extended := false, rtr := false, timestamp := 0 }] := by
  decide

/-- C3: after `setFilter(mask, code)`, `passesFilter id` holds iff
`id &&& mask = code &&& mask`; with mask 0 every identifier passes; after
`clearFilter` every identifier passes. -/
theorem passesFilter_iff (s : RA4M1CANState) (id mask code : Nat) :
    (RA4M1CAN.passesFilter (RA4M1CAN.setFilter s mask code) id = true
       ↔ id &&& mask = code &&& mask)
    ∧ RA4M1CAN.passesFilter (RA4M1CAN.setFilter s 0 code) id = true
    ∧ RA4M1CAN.passesFilter (RA4M1CAN.clearFilter s) id = true := by
  refine ⟨?_, ?_, ?_⟩ <;>
    simp [RA4M1CAN.passesFilter, RA4M1CAN.setFilter, RA4M1CAN.clearFilter]

/-- C4: `O` while the state is already Open yields the error marker and
leaves the whole state unchanged (hence still Open); `C` while Closed yields
the success response and leaves the state Closed. -/
theorem open_while_open_close_while_closed (s : SysState) :
    (s.state = SLCANState.Open →
       SLCAN.processCommand RESPONSE_BUFFER_SIZE ['O'] s = (some SLCAN.setError, s))
    ∧ (s.state = SLCANState.Closed →
       SLCAN.processCommand RESPONSE_BUFFER_SIZE ['C'] s = (some SLCAN.setOk, s)) := by
  constructor <;> intro h <;>
    simp [SLCAN.processCommand, SLCAN.handleOpen, SLCAN.handleClose,
          RESPONSE_BUFFER_SIZE, h]

/-- Witness for C4 at concrete states: `sysOpen` is Open and `sysIdle` is
Closed. -/
theorem open_while_open_close_while_closed_witness :
    (sysOpen.state = SLCANState.Open
      ∧ SLCAN.processCommand RESPONSE_BUFFER_SIZE ['O'] sysOpen
          = (some SLCAN.setError, sysOpen))
    ∧ (sysIdle.state = SLCANState.Closed
      ∧ SLCAN.processCommand RESPONSE_BUFFER_SIZE ['C'] sysIdle
          = (some SLCAN.setOk, sysIdle)) :=
  ⟨⟨by decide, (open_while_open_close_while_closed sysOpen).1 (by decide)⟩,
   ⟨by decide, (open_while_open_close_while_closed sysIdle).2 (by decide)⟩⟩

/-- C7: `writeWithPriority` is all-or-nothing for every payload, priority,
first `availableForWrite` reading and wait behaviour: either the single call
to the sink carries the entire payload and the result is success, or the
sink receives nothing and the result is not success (drop or undecided
wait). -/
theorem writeWithPriority_atomic (avail0 : Int) (readings : List (Int × Nat))
    (data : List Char) (prio : WritePriority) :
    ((SerialTransport.writeWithPriority avail0 readings data prio).2.1 = [data]
      ∧ (SerialTransport.writeWithPriority avail0 readings data prio).1 = some true)
    ∨ ((SerialTransport.writeWithPriority avail0 readings data prio).2.1 = []
      ∧ (SerialTransport.writeWithPriority avail0 readings data prio).1 ≠ some true) := by
  unfold SerialTransport.writeWithPriority
  by_cases hc : avail0 > 0 ∧ avail0 < (data.length : Int)
  · rcases h : SerialTransport.waitForSpace data.length readings with - | b
    · cases prio <;> simp [hc, h]
    · cases b <;> cases prio <;> simp [hc, h]
  · cases prio <;> simp [hc]

/-- C8 (evaluation at the failing input): the handler does not claim lines
beginning with `X`, `processCommand` answers the error marker for `X1` and
`X0` leaving the state unchanged, and the auto-forward flag is the
constructor default `true` (the `X0`/`X1` toggle is never implemented). -/
theorem autopoll_not_implemented :
    SLCAN.canHandle ['X', '1'] = false
    ∧ SLCAN.canHandle ['X', '0'] = false
    ∧ SLCAN.processCommand RESPONSE_BUFFER_SIZE ['X', '1'] sysIdle
        = (some SLCAN.setError, sysIdle)
    ∧ SLCAN.processCommand RESPONSE_BUFFER_SIZE ['X', '0'] sysIdle
        = (some SLCAN.setError, sysIdle)
    ∧ sysIdle.autoForward = true := by
  decide

/-! ### Helper lemmas -/

theorem handleSetup_resp (cmd : List Char) (s : SysState) :
    (SLCAN.handleSetup cmd s).1 = SLCAN.setOk
      ∨ (SLCAN.handleSetup cmd s).1 = SLCAN.setError := by
  unfold SLCAN.handleSetup
  try dsimp only
  split_ifs <;> simp

theorem handleOpen_resp (s : SysState) :
    (SLCAN.handleOpen s).1 = SLCAN.setOk
      ∨ (SLCAN.handleOpen s).1 = SLCAN.setError := by
  unfold SLCAN.handleOpen
  try dsimp only
  rcases hb : RA4M1CAN.begin s.can s.hw s.configuredBitrate CANMode.Normal
    with ⟨ok, can, hw⟩
  simp only [hb]
  split_ifs <;> simp

theorem handleListen_resp (s : SysState) :
    (SLCAN.handleListen s).1 = SLCAN.setOk
      ∨ (SLCAN.handleListen s).1 = SLCAN.setError := by
  unfold SLCAN.handleListen
  try dsimp only
  rcases hb : RA4M1CAN.begin s.can s.hw s.configuredBitrate CANMode.ListenOnly
    with ⟨ok, can, hw⟩
  simp only [hb]
  split_ifs <;> simp

theorem handleClose_resp (s : SysState) :
    (SLCAN.handleClose s).1 = SLCAN.setOk := by
  unfold SLCAN.handleClose
  try dsimp only
  split_ifs <;> simp

theorem handleTransmit_resp (cmd : List Char) (s : SysState)
    (ext rtr : Bool) (ack : Char) :
    (SLCAN.handleTransmit cmd s ext rtr ack).1 = [ack]
      ∨ (SLCAN.handleTransmit cmd s ext rtr ack).1 = SLCAN.setError := by
  unfold SLCAN.handleTransmit
  try dsimp only
  split_ifs
  · simp
  · rcases hp : parseFrame cmd ext rtr with - | f
    · simp
    · rcases hwr : RA4M1CAN.write s.can s.hw f with ⟨ok, can, hw2⟩
      simp only [hwr]
      split_ifs <;> simp

theorem handleTimestamp_resp (cmd : List Char) (s : SysState) :
    (SLCAN.handleTimestamp cmd s).1 = SLCAN.setOk
      ∨ (SLCAN.handleTimestamp cmd s).1 = SLCAN.setError := by
  unfold SLCAN.handleTimestamp
  try dsimp only
  split_ifs <;> simp

theorem handleFilterMask_resp (cmd : List Char) (s : SysState) :
    (SLCAN.handleFilterMask cmd s).1 = SLCAN.setOk
      ∨ (SLCAN.handleFilterMask cmd s).1 = SLCAN.setError := by
  unfold SLCAN.handleFilterMask
  try dsimp only
  split_ifs <;> simp

theorem handleFilterCode_resp (cmd : List Char) (s : SysState) :
    (SLCAN.handleFilterCode cmd s).1 = SLCAN.setOk
      ∨ (SLCAN.handleFilterCode cmd s).1 = SLCAN.setError := by
  unfold SLCAN.handleFilterCode
  try dsimp only
  split_ifs <;> simp

set_option maxHeartbeats 1000000 in
/-- C9: for every command line and every response capacity of at least two
bytes, `processCommand` generates a response, and that response is the empty
success marker, the BELL error marker, or one of the literal payloads `z`,
`Z`, `F00`, `V0102`, `NSCAN` — it never declines a line, recognized or not. -/
theorem processCommand_always_responds (maxLen : Nat) (cmd : List Char)
    (s : SysState) (h : 2 ≤ maxLen) :
    ∃ r, (SLCAN.processCommand maxLen cmd s).1 = some r
    ∧ (r = SLCAN.setOk ∨ r = SLCAN.setError ∨ r = ['z'] ∨ r = ['Z']
         ∨ r = ['F', '0', '0'] ∨ r = ['V', '0', '1', '0', '2']
         ∨ r = ['N', 'S', 'C', 'A', 'N']) := by
  unfold SLCAN.processCommand
  rw [if_neg (by omega)]
  try dsimp only
  by_cases h1 : cmd.headD (Char.ofNat 0) = 'S'
  · simp only [if_pos h1]
    rcases hx : SLCAN.handleSetup cmd s with ⟨r0, s0⟩
    refine ⟨r0, by simp [hx], ?_⟩
    have hr := handleSetup_resp cmd s
    rw [hx] at hr
    rcases hr with h' | h' <;> simp_all
  simp only [if_neg h1]
  by_cases h2 : cmd.headD (Char.ofNat 0) = 's'
  · simp only [if_pos h2]
    exact ⟨SLCAN.setError, rfl, by simp⟩
  simp only [if_neg h2]
  by_cases h3 : cmd.headD (Char.ofNat 0) = 'O'
  · simp only [if_pos h3]
    rcases hx : SLCAN.handleOpen s with ⟨r0, s0⟩
    refine ⟨r0, by simp [hx], ?_⟩
    have hr := handleOpen_resp s
    rw [hx] at hr
    rcases hr with h' | h' <;> simp_all
  simp only [if_neg h3]
  by_cases h4 : cmd.headD (Char.ofNat 0) = 'L'
  · simp only [if_pos h4]
    rcases hx : SLCAN.handleListen s with ⟨r0, s0⟩
    refine ⟨r0, by simp [hx], ?_⟩
    have hr := handleListen_resp s
    rw [hx] at hr
    rcases hr with h' | h' <;> simp_all
  simp only [if_neg h4]
  by_cases h5 : cmd.headD (Char.ofNat 0) = 'C'
  · simp only [if_pos h5]
    rcases hx : SLCAN.handleClose s with ⟨r0, s0⟩
    refine ⟨r0, by simp [hx], ?_⟩
    have hr := handleClose_resp s
    rw [hx] at hr
    simp_all
  simp only [if_neg h5]
  by_cases h6 : cmd.headD (Char.ofNat 0) = 't'
  · simp only [if_pos h6]
    rcases hx : SLCAN.handleTransmit cmd s false false 'z' with ⟨r0, s0⟩
    refine ⟨r0, by simp [hx], ?_⟩
    have hr := handleTransmit_resp cmd s false false 'z'
    rw [hx] at hr
    rcases hr with h' | h' <;> simp_all
  simp only [if_neg h6]
  by_cases h7 : cmd.headD (Char.ofNat 0) = 'T'
  · simp only [if_pos h7]
    rcases hx : SLCAN.handleTransmit cmd s true false 'Z' with ⟨r0, s0⟩
    refine ⟨r0, by simp [hx], ?_⟩
    have hr := handleTransmit_resp cmd s true false 'Z'
    rw [hx] at hr
    rcases hr with h' | h' <;> simp_all
  simp only [if_neg h7]
  by_cases h8 : cmd.headD (Char.ofNat 0) = 'r'
  · simp only [if_pos h8]
    rcases hx : SLCAN.handleTransmit cmd s false true 'z' with ⟨r0, s0⟩
    refine ⟨r0, by simp [hx], ?_⟩
    have hr := handleTransmit_resp cmd s false true 'z'
    rw [hx] at hr
    rcases hr with h' | h' <;> simp_all
  simp only [if_neg h8]
  by_cases h9 : cmd.headD (Char.ofNat 0) = 'R'
  · simp only [if_pos h9]
    rcases hx : SLCAN.handleTransmit cmd s true true 'Z' with ⟨r0, s0⟩
    refine ⟨r0, by simp [hx], ?_⟩
    have hr := handleTransmit_resp cmd s true true 'Z'
    rw [hx] at hr
    rcases hr with h' | h' <;> simp_all
  simp only [if_neg h9]
  by_cases h10 : cmd.headD (Char.ofNat 0) = 'F'
  · simp only [if_pos h10]
    have hst : SLCAN.handleStatus s = (['F', '0', '0'], s) := by
        unfold SLCAN.handleStatus
        simp only [Prod.mk.injEq]
        exact ⟨by decide, trivial⟩
    exact ⟨['F', '0', '0'], by simp [hst], by simp⟩
  simp only [if_neg h10]
  by_cases h11 : cmd.headD (Char.ofNat 0) = 'V'
  · simp only [if_pos h11]
    have hst : SLCAN.handleVersion s = (['V', '0', '1', '0', '2'], s) := by
        unfold SLCAN.handleVersion
        simp only [Prod.mk.injEq]
        exact ⟨by decide, trivial⟩
    exact ⟨['V', '0', '1', '0', '2'], by simp [hst], by simp⟩
  simp only [if_neg h11]
  by_cases h12 : cmd.headD (Char.ofNat 0) = 'N'
  · simp only [if_pos h12]
    have hst : SLCAN.handleSerial s = (['N', 'S', 'C', 'A', 'N'], s) := rfl
    exact ⟨['N', 'S', 'C', 'A', 'N'], by simp [hst], by simp⟩
  simp only [if_neg h12]
  by_cases h13 : cmd.headD (Char.ofNat 0) = 'Z'
  · simp only [if_pos h13]
    rcases hx : SLCAN.handleTimestamp cmd s with ⟨r0, s0⟩
    refine ⟨r0, by simp [hx], ?_⟩
    have hr := handleTimestamp_resp cmd s
    rw [hx] at hr
    rcases hr with h' | h' <;> simp_all
  simp only [if_neg h13]
  by_cases h14 : cmd.headD (Char.ofNat 0) = 'M'
  · simp only [if_pos h14]
    rcases hx : SLCAN.handleFilterMask cmd s with ⟨r0, s0⟩
    refine ⟨r0, by simp [hx], ?_⟩
    have hr := handleFilterMask_resp cmd s
    rw [hx] at hr
    rcases hr with h' | h' <;> simp_all
  simp only [if_neg h14]
  by_cases h15 : cmd.headD (Char.ofNat 0) = 'm'
  · simp only [if_pos h15]
    rcases hx : SLCAN.handleFilterCode cmd s with ⟨r0, s0⟩
    refine ⟨r0, by simp [hx], ?_⟩
    have hr := handleFilterCode_resp cmd s
    rw [hx] at hr
    rcases hr with h' | h' <;> simp_all
  simp only [if_neg h15]
  exact ⟨SLCAN.setError, rfl, by simp⟩

/-- Witness for C9 at the unrecognized line `Q` with the minimum capacity. -/
theorem processCommand_always_responds_witness :
    2 ≤ 2 ∧
    ∃ r, (SLCAN.processCommand 2 ['Q'] sysIdle).1 = some r
      ∧ (r = SLCAN.setOk ∨ r = SLCAN.setError ∨ r = ['z'] ∨ r = ['Z']
         ∨ r = ['F', '0', '0'] ∨ r = ['V', '0', '1', '0', '2']
         ∨ r = ['N', 'S', 'C', 'A', 'N']) :=
  ⟨by decide, processCommand_always_responds 2 ['Q'] sysIdle (by decide)⟩


theorem processIncoming_eq_self (s : TransportState) (h : s.serialIn = []) :
    SerialTransport.processIncoming s = s := by
  unfold SerialTransport.processIncoming
  split
  · rfl
  · rename_i c rest hser
    rw [h] at hser
    cases hser

set_option maxHeartbeats 1000000 in
/-- C10: when the oldest queued command line has length at least `maxLen`,
`readLine` returns `true` with only the first `maxLen - 1` characters of the
line (then null-terminates the destination), removes the whole line from the
queue, and increments no counter; with the shipped sizes (`CMD_BUFFER_SIZE
= 64` read buffer, 256-byte queue slots) the tail is silently lost. -/
theorem readLine_truncates_long_line (s : TransportState) (maxLen : Nat)
    (hser : s.serialIn = []) (hne : ¬ s.cmdTail = s.cmdHead)
    (hlen : (s.cmdQueue.getD s.cmdTail CommandSlot.empty).length ≥ maxLen)
    (hpos : 0 < maxLen) :
    (SerialTransport.readLine s maxLen).1
        = some ((s.cmdQueue.getD s.cmdTail CommandSlot.empty).buffer.take (maxLen - 1))
    ∧ (SerialTransport.readLine s maxLen).2.cmdTail
        = (s.cmdTail + 1) % SERIAL_CMD_QUEUE_SIZE
    ∧ (SerialTransport.readLine s maxLen).2.cmdOverflowCount = s.cmdOverflowCount
    ∧ (SerialTransport.readLine s maxLen).2.cmdResponseDropCount
        = s.cmdResponseDropCount
    ∧ (SerialTransport.readLine s maxLen).2.canTxDropCount = s.canTxDropCount
    ∧ SERIAL_RX_BUFFER_SIZE = 256 ∧ CMD_BUFFER_SIZE = 64 := by
  unfold SerialTransport.readLine
  rw [processIncoming_eq_self s hser]
  rw [if_neg hne]
  try dsimp only
  rw [if_pos hlen]
  refine ⟨rfl, rfl, rfl, rfl, rfl, rfl, rfl⟩

/-- Witness for C10: a queued 70-character line read through the shipped
64-byte command buffer comes back truncated to its first 63 characters. -/
theorem readLine_truncates_long_line_witness :
    (SerialTransport.readLine transport70 CMD_BUFFER_SIZE).1
        = some ((transport70.cmdQueue.getD transport70.cmdTail
                  CommandSlot.empty).buffer.take (CMD_BUFFER_SIZE - 1))
    ∧ (SerialTransport.readLine transport70 CMD_BUFFER_SIZE).2.cmdTail
        = (transport70.cmdTail + 1) % SERIAL_CMD_QUEUE_SIZE
    ∧ (SerialTransport.readLine transport70 CMD_BUFFER_SIZE).2.cmdOverflowCount
        = transport70.cmdOverflowCount
    ∧ (SerialTransport.readLine transport70 CMD_BUFFER_SIZE).2.cmdResponseDropCount
        = transport70.cmdResponseDropCount
    ∧ (SerialTransport.readLine transport70 CMD_BUFFER_SIZE).2.canTxDropCount
        = transport70.canTxDropCount
    ∧ SERIAL_RX_BUFFER_SIZE = 256 ∧ CMD_BUFFER_SIZE = 64 :=
  readLine_truncates_long_line transport70 CMD_BUFFER_SIZE (by decide) (by decide)
    (by decide) (by decide)

theorem drainRxRing_ignores_overflowCount (fuel : Nat) :
    ∀ (s : SysState) (k : Nat),
      drainRxRing { s with rxOverflowCount := k } fuel = drainRxRing s fuel := by
  induction fuel with
  | zero => intro s k; rfl
  | succ f ih =>
    intro s k
    unfold drainRxRing SLCAN.getNextRxFrame
    by_cases h : s.rxTail = s.rxHead
    · simp [h]
    · try dsimp only
      simp only [if_neg h]
      refine congrArg _ ?_
      exact ih { s with
          rxQueue := s.rxQueue.set s.rxTail
            { s.rxQueue.getD s.rxTail FrameSlot.empty with valid := false },
          rxTail := (s.rxTail + 1) % CAN_RX_QUEUE_SIZE } k

/-- C6: when the receive ring is full and the open backend still has an
incoming frame, `drainFromBackend` only increments the overflow counter: the
incoming frame is not admitted (the backend receive path is not consumed),
draining stops for this call, and every previously buffered frame remains
retrievable afterward, in its original arrival order. -/
theorem rx_ring_overflow_drops_newest (s : SysState) (now : Nat)
    (hfull : (s.rxHead + 1) % CAN_RX_QUEUE_SIZE = s.rxTail)
    (havail : RA4M1CAN.available s.can s.hw = true) :
    SLCAN.drainFromBackend s now
        = { s with rxOverflowCount := s.rxOverflowCount + 1 }
    ∧ (SLCAN.drainFromBackend s now).hw.rxFrames = s.hw.rxFrames
    ∧ ∀ fuel, drainRxRing (SLCAN.drainFromBackend s now) fuel
        = drainRxRing s fuel := by
  have h1 : SLCAN.drainFromBackend s now
      = { s with rxOverflowCount := s.rxOverflowCount + 1 } := by
    unfold SLCAN.drainFromBackend
    simp [havail, hfull]
  refine ⟨h1, by rw [h1], fun fuel => ?_⟩
  rw [h1]
  exact drainRxRing_ignores_overflowCount fuel s (s.rxOverflowCount + 1)

/-- Witness for C6 at a concrete full ring with one frame pending in the
backend. -/
theorem rx_ring_overflow_drops_newest_witness :
    SLCAN.drainFromBackend sysRingFull 0
        = { sysRingFull with rxOverflowCount := sysRingFull.rxOverflowCount + 1 }
    ∧ (SLCAN.drainFromBackend sysRingFull 0).hw.rxFrames = sysRingFull.hw.rxFrames
    ∧ ∀ fuel, drainRxRing (SLCAN.drainFromBackend sysRingFull 0) fuel
        = drainRxRing sysRingFull fuel :=
  rx_ring_overflow_drops_newest sysRingFull 0 (by decide) (by decide)

theorem queueSeg_succ (arr : List CANFrame) (tl c : Nat)
    (h : tl < CAN_TX_QUEUE_SIZE) :
    RA4M1CAN.queueSeg arr tl (c + 1)
      = arr.getD tl CANFrame.zero
          :: RA4M1CAN.queueSeg arr ((tl + 1) % CAN_TX_QUEUE_SIZE) c := by
  unfold RA4M1CAN.queueSeg
  rw [List.range_succ_eq_map]
  simp only [List.map_cons, List.map_map]
  congr 1
  · rw [Nat.add_zero, Nat.mod_eq_of_lt h]
  · apply List.map_congr_left
    intro i _
    simp only [Function.comp_apply]
    rw [Nat.mod_add_mod]
    have hadd : tl + i.succ = tl + 1 + i := by omega
    rw [hadd]

theorem queueSeg_set_append (arr : List CANFrame) (tl cnt : Nat) (f : CANFrame)
    (hlen : arr.length = CAN_TX_QUEUE_SIZE) (htl : tl < CAN_TX_QUEUE_SIZE)
    (hcnt : cnt < CAN_TX_QUEUE_SIZE) :
    RA4M1CAN.queueSeg (arr.set ((tl + cnt) % CAN_TX_QUEUE_SIZE) f) tl (cnt + 1)
      = RA4M1CAN.queueSeg arr tl cnt ++ [f] := by
  unfold RA4M1CAN.queueSeg
  rw [List.range_succ, List.map_append]
  congr 1
  · apply List.map_congr_left
    intro i hi
    have hi' : i < cnt := List.mem_range.mp hi
    have hne : (tl + i) % CAN_TX_QUEUE_SIZE ≠ (tl + cnt) % CAN_TX_QUEUE_SIZE := by
      intro heq
      have h1 : i % CAN_TX_QUEUE_SIZE = cnt % CAN_TX_QUEUE_SIZE :=
        Nat.ModEq.add_left_cancel' tl heq
      rw [Nat.mod_eq_of_lt (lt_trans hi' hcnt), Nat.mod_eq_of_lt hcnt] at h1
      omega
    simp only [List.getD_eq_getElem?_getD]
    rw [List.getElem?_set_ne (Ne.symm hne)]
  · simp only [List.map_cons, List.map_nil, List.getD_eq_getElem?_getD]
    rw [List.getElem?_set_self (by rw [hlen]; exact Nat.mod_lt _ (by decide))]
    simp

theorem serviceTxAux_spec (cnt : Nat) :
    ∀ (arr : List CANFrame) (tl : Nat) (hw : HW), tl < CAN_TX_QUEUE_SIZE →
      (RA4M1CAN.serviceTxAux arr tl cnt hw).2.2.2
          = (RA4M1CAN.queueSeg arr tl cnt).take
              (RA4M1CAN.leadingAccepts hw.writeResults cnt)
        ∧ RA4M1CAN.queueSeg arr (RA4M1CAN.serviceTxAux arr tl cnt hw).1
            (RA4M1CAN.serviceTxAux arr tl cnt hw).2.1
          = (RA4M1CAN.queueSeg arr tl cnt).drop
              (RA4M1CAN.leadingAccepts hw.writeResults cnt) := by
  induction cnt with
  | zero =>
    intro arr tl hw htl
    simp [RA4M1CAN.serviceTxAux, RA4M1CAN.leadingAccepts, RA4M1CAN.queueSeg]
  | succ c ih =>
    intro arr tl hw htl
    rcases hwr : hw.writeResults with - | ⟨b, rest⟩
    · have hcall : hw.writeCall (arr.getD tl CANFrame.zero) = (false, hw) := by
        unfold HW.writeCall
        rw [hwr]
      simp only [RA4M1CAN.serviceTxAux, hcall]
      simp [RA4M1CAN.leadingAccepts, hwr]
    · cases b
      · have hcall : hw.writeCall (arr.getD tl CANFrame.zero)
            = (false, { hw with writeResults := rest, txLog := hw.txLog }) := by
          unfold HW.writeCall
          rw [hwr]
          simp
        simp only [RA4M1CAN.serviceTxAux, hcall]
        simp [RA4M1CAN.leadingAccepts, hwr]
      · have hcall : hw.writeCall (arr.getD tl CANFrame.zero)
            = (true, { hw with
                       writeResults := rest,
                       txLog := hw.txLog ++ [arr.getD tl CANFrame.zero] }) := by
          unfold HW.writeCall
          rw [hwr]
          simp
        have hmod : (tl + 1) % CAN_TX_QUEUE_SIZE < CAN_TX_QUEUE_SIZE :=
          Nat.mod_lt _ (by decide)
        obtain ⟨ih1, ih2⟩ := ih arr ((tl + 1) % CAN_TX_QUEUE_SIZE)
          { hw with
            writeResults := rest,
            txLog := hw.txLog ++ [arr.getD tl CANFrame.zero] } hmod
        simp only [RA4M1CAN.serviceTxAux, hcall]
        try dsimp only at ih1 ih2
        constructor
        · simp only [if_true]
          try dsimp only
          rw [queueSeg_succ arr tl c htl]
          simp only [RA4M1CAN.leadingAccepts]
          simp only [if_true]
          rw [List.take_succ_cons, ih1]
        · simp only [if_true]
          try dsimp only
          rw [queueSeg_succ arr tl c htl]
          simp only [RA4M1CAN.leadingAccepts]
          simp only [if_true]
          rw [List.drop_succ_cons, ih2]

set_option maxHeartbeats 1000000 in
/-- C5: under the circular-queue well-formedness invariant, with the channel
open: `serviceTxQueue` hands queued frames to the hardware in exactly their
enqueue order, transmitting precisely the frames the hardware accepts before
its first rejection (a take of the queue content) and leaving exactly the
rest queued (the matching drop) — it never skips ahead; and any `write`
accepted while the queue is non-empty appends the frame behind every queued
frame without touching the hardware (never bypasses the queue). -/
theorem tx_queue_strict_fifo (s : RA4M1CANState) (hw : HW)
    (hwf : RA4M1CAN.TxWF s) (hopen : s.isOpen = true) :
    ((RA4M1CAN.serviceTxQueue s hw).2.2
        = (RA4M1CAN.txQueueFrames s).take
            (RA4M1CAN.leadingAccepts hw.writeResults s.txQueueCount)
      ∧ RA4M1CAN.txQueueFrames (RA4M1CAN.serviceTxQueue s hw).1
          = (RA4M1CAN.txQueueFrames s).drop
              (RA4M1CAN.leadingAccepts hw.writeResults s.txQueueCount))
    ∧ (∀ f, 0 < s.txQueueCount → (RA4M1CAN.write s hw f).1 = true →
        RA4M1CAN.txQueueFrames (RA4M1CAN.write s hw f).2.1
            = RA4M1CAN.txQueueFrames s ++ [f]
          ∧ (RA4M1CAN.write s hw f).2.2 = hw) := by
  obtain ⟨hlen, hcnt, htl, hhd⟩ := hwf
  constructor
  · have hs := serviceTxAux_spec s.txQueueCount s.txQueue s.txQueueTail hw htl
    unfold RA4M1CAN.serviceTxQueue
    rw [if_neg (by simp [hopen])]
    unfold RA4M1CAN.txQueueFrames
    try dsimp only
    exact hs
  · intro f hpos hres
    unfold RA4M1CAN.write at hres ⊢
    rw [if_neg (by simp [hopen])] at hres ⊢
    by_cases hmode : s.mode = CANMode.ListenOnly
    · rw [if_pos hmode] at hres
      cases hres
    · rw [if_neg hmode] at hres ⊢
      have htry : ¬ (s.txQueueCount = 0) := by omega
      simp only [htry, if_false, ite_false, false_and, and_false] at hres ⊢
      by_cases hlt : s.txQueueCount < CAN_TX_QUEUE_SIZE
      · simp only [hlt, if_true, ite_true] at hres ⊢
        refine ⟨?_, by trivial⟩
        unfold RA4M1CAN.txQueueFrames
        try dsimp only
        rw [hhd]
        exact queueSeg_set_append s.txQueue s.txQueueTail s.txQueueCount f hlen htl hlt
      · simp only [hlt, if_false, ite_false] at hres
        cases hres

/-- Witness for C5 at a concrete open backend with two queued frames and a
hardware oracle that accepts one frame and then reports busy. -/
theorem tx_queue_strict_fifo_witness :
    ((RA4M1CAN.serviceTxQueue canTwoQueued hwAcceptOne).2.2
        = (RA4M1CAN.txQueueFrames canTwoQueued).take
            (RA4M1CAN.leadingAccepts hwAcceptOne.writeResults
              canTwoQueued.txQueueCount)
      ∧ RA4M1CAN.txQueueFrames (RA4M1CAN.serviceTxQueue canTwoQueued hwAcceptOne).1
          = (RA4M1CAN.txQueueFrames canTwoQueued).drop
              (RA4M1CAN.leadingAccepts hwAcceptOne.writeResults
                canTwoQueued.txQueueCount))
    ∧ (∀ f, 0 < canTwoQueued.txQueueCount →
        (RA4M1CAN.write canTwoQueued hwAcceptOne f).1 = true →
        RA4M1CAN.txQueueFrames (RA4M1CAN.write canTwoQueued hwAcceptOne f).2.1
            = RA4M1CAN.txQueueFrames canTwoQueued ++ [f]
          ∧ (RA4M1CAN.write canTwoQueued hwAcceptOne f).2.2 = hwAcceptOne) :=
  tx_queue_strict_fifo canTwoQueued hwAcceptOne
    ⟨by decide, by decide, by decide, by decide⟩ (by decide)

theorem and_fifteen (n : Nat) : n &&& 0x0F = n % 16 := by
  have h := Nat.and_pow_two_sub_one_eq_mod n 4
  norm_num at h
  exact h

theorem hex_nibble_roundtrip :
    ∀ m, m < 16 → hexCharToNibble (nibbleToHexChar m) = m := by decide

theorem isHexChar_nibbleToHexChar :
    ∀ m, m < 16 → isHexChar (nibbleToHexChar m) = true := by decide

set_option maxRecDepth 10000 in
theorem byte_roundtrip :
    ∀ b, b < 256 →
      ((hexCharToNibble (nibbleToHexChar ((b >>> 4) &&& 0x0F)) <<< 4)
        ||| hexCharToNibble (nibbleToHexChar (b &&& 0x0F))) = b := by decide

theorem formatHex_length (d : Nat) : ∀ v, (formatHex v d).length = d := by
  induction d with
  | zero => intro v; rfl
  | succ d ih => intro v; simp [formatHex, ih]

theorem formatHex_all_hex (d : Nat) :
    ∀ v, (formatHex v d).all isHexChar = true := by
  induction d with
  | zero => intro v; rfl
  | succ d ih =>
    intro v
    simp only [formatHex, List.all_append, ih, Bool.true_and, List.all_cons,
      List.all_nil, Bool.and_true]
    rw [and_fifteen]
    exact isHexChar_nibbleToHexChar _ (Nat.mod_lt _ (by norm_num))

theorem parseHex_formatHex :
    ∀ d v, d ≤ 8 → v < 16 ^ d → parseHex (formatHex v d) = v := by
  intro d
  induction d with
  | zero =>
    intro v _ hv
    norm_num at hv
    simp [hv, parseHex, formatHex]
  | succ d ih =>
    intro v hd hv
    have hvd : v >>> 4 < 16 ^ d := by
      rw [Nat.shiftRight_eq_div_pow]
      norm_num
      rw [Nat.div_lt_iff_lt_mul (by norm_num : (0:Nat) < 16)]
      calc v < 16 ^ (d + 1) := hv
        _ = 16 ^ d * 16 := by ring
    have hpref := ih (v >>> 4) (by omega) hvd
    unfold formatHex
    unfold parseHex at hpref ⊢
    rw [List.foldl_append]
    rw [hpref]
    simp only [List.foldl_cons, List.foldl_nil]
    rw [and_fifteen]
    rw [hex_nibble_roundtrip (v % 16) (Nat.mod_lt _ (by norm_num))]
    have hsh : (v >>> 4) <<< 4 = 2 ^ 4 * (v / 2 ^ 4) := by
      rw [Nat.shiftRight_eq_div_pow, Nat.shiftLeft_eq]
      ring
    rw [hsh]
    have hmlt : v % 16 < 2 ^ 4 := by
      have h16 : (2 : Nat) ^ 4 = 16 := by norm_num
      rw [h16]
      omega
    rw [← Nat.mul_add_lt_is_or hmlt (v / 2 ^ 4)]
    have h16' : 2 ^ 4 * (v / 2 ^ 4) + v % 16 = v := by
      have h24 : (2 : Nat) ^ 4 = 16 := by norm_num
      rw [h24]
      exact Nat.div_add_mod v 16
    rw [h16']
    have hlt : v < 2 ^ 32 := by
      calc v < 16 ^ (d + 1) := hv
        _ ≤ 16 ^ 8 := Nat.pow_le_pow_right (by norm_num) (by omega)
        _ = 2 ^ 32 := by norm_num
    exact Nat.mod_eq_of_lt hlt

theorem encodeBytes_length (bs : List Nat) :
    (encodeBytes bs).length = 2 * bs.length := by
  induction bs with
  | nil => rfl
  | cons b bs ih => simp [encodeBytes, ih]; ring

theorem parseDataBytes_encodeBytes :
    ∀ (bs : List Nat) (rest : List Char), (∀ b ∈ bs, b < 256) →
      parseDataBytes (encodeBytes bs ++ rest) bs.length = some bs := by
  intro bs
  induction bs with
  | nil =>
    intro rest _
    simp [encodeBytes, parseDataBytes]
  | cons b bs ih =>
    intro rest hb
    have hb0 : b < 256 := hb b (List.mem_cons_self _ _)
    have hhex1 : isHexChar (nibbleToHexChar ((b >>> 4) &&& 0x0F)) = true := by
      rw [and_fifteen]
      exact isHexChar_nibbleToHexChar _ (Nat.mod_lt _ (by norm_num))
    have hhex2 : isHexChar (nibbleToHexChar (b &&& 0x0F)) = true := by
      rw [and_fifteen]
      exact isHexChar_nibbleToHexChar _ (Nat.mod_lt _ (by norm_num))
    simp only [encodeBytes, List.cons_append, List.length_cons]
    unfold parseDataBytes
    rw [if_pos ⟨hhex1, hhex2⟩]
    rw [ih rest (fun x hx => hb x (List.mem_cons_of_mem _ hx))]
    simp [byte_roundtrip b hb0]

theorem formatDataChars_eq_encodeBytes :
    ∀ (dlc : Nat) (data : List Nat) (pos maxLen : Nat),
      dlc ≤ data.length → pos + 2 * dlc < maxLen →
      formatDataChars data dlc pos maxLen = encodeBytes (data.take dlc) := by
  intro dlc
  induction dlc with
  | zero =>
    intro data pos maxLen _ _
    cases data <;> rfl
  | succ d ih =>
    intro data pos maxLen hlen hmax
    cases data with
    | nil => simp at hlen
    | cons b rest =>
      unfold formatDataChars
      rw [if_pos (by omega)]
      rw [ih rest (pos + 2) maxLen (by simpa using hlen) (by omega)]
      simp [encodeBytes]

set_option maxHeartbeats 1000000 in
/-- C2: for every valid standard frame (not extended, not remote, id within
11 bits, dlc at most 8, byte-sized data with bytes beyond dlc zero) and
every sufficiently large buffer, formatting with `formatFrame` (with or
without the timestamp suffix) and parsing the result with `parseFrame`
yields a frame with the same id, dlc, data, extended and rtr flags. -/
theorem format_parse_roundtrip_std (f : CANFrame) (ts : Bool) (maxLen : Nat)
    (hext : f.extended = false) (hrtr : f.rtr = false) (hid : f.id ≤ 0x7FF)
    (hdlc : f.dlc ≤ 8) (hlen8 : f.data.length = 8)
    (hbytes : ∀ b ∈ f.data, b < 256)
    (hzero : f.data.drop f.dlc = List.replicate (8 - f.dlc) 0)
    (hmax : 26 ≤ maxLen) :
    ∃ s, formatFrame ts f maxLen = some s
      ∧ parseFrame s false false = some { f with timestamp := 0 } := by
  obtain ⟨id, dlc, data, ext, rtr, tsv⟩ := f
  dsimp only at hext hrtr hid hdlc hlen8 hbytes hzero ⊢
  subst hext
  subst hrtr
  have htake : (data.take dlc).length = dlc := by
    rw [List.length_take, hlen8]
    omega
  have hC : (encodeBytes (data.take dlc)).length = 2 * dlc := by
    rw [encodeBytes_length, htake]
  have hdata : data.take dlc ++ List.replicate (8 - dlc) 0 = data := by
    conv_rhs => rw [← List.take_append_drop dlc data]
    rw [hzero]
  have hA : (formatHex id 3).length = 3 := formatHex_length 3 id
  have hfmt : ∃ tschars,
      formatFrame ts ⟨id, dlc, data, false, false, tsv⟩ maxLen
        = some ('t' :: formatHex id 3 ++ [nibbleToHexChar dlc]
            ++ encodeBytes (data.take dlc) ++ tschars) := by
    unfold formatFrame
    dsimp only
    simp only [Bool.false_eq_true, if_false, SLCAN_STD_ID_LEN, SLCAN_TIMESTAMP_LEN]
    rw [if_neg (show ¬ (0 ≥ maxLen) by omega)]
    rw [if_neg (show ¬ (1 + 3 ≥ maxLen) by omega)]
    rw [formatDataChars_eq_encodeBytes dlc data (2 + 3) maxLen (by omega) (by omega)]
    exact ⟨_, rfl⟩
  have hparse : ∀ suffix,
      parseFrame ('t' :: formatHex id 3 ++ [nibbleToHexChar dlc]
          ++ encodeBytes (data.take dlc) ++ suffix) false false
        = some ⟨id, dlc, data, false, false, 0⟩ := by
    intro suffix
    have hdrop1 : ('t' :: formatHex id 3 ++ [nibbleToHexChar dlc]
          ++ encodeBytes (data.take dlc) ++ suffix).drop 1
        = formatHex id 3 ++ [nibbleToHexChar dlc]
            ++ encodeBytes (data.take dlc) ++ suffix := rfl
    have hidstr : ((('t' :: formatHex id 3 ++ [nibbleToHexChar dlc]
          ++ encodeBytes (data.take dlc) ++ suffix).drop 1).take 3)
        = formatHex id 3 := by
      rw [hdrop1, List.append_assoc, List.append_assoc]
      exact List.take_left' hA
    have hdrop4 : ('t' :: formatHex id 3 ++ [nibbleToHexChar dlc]
          ++ encodeBytes (data.take dlc) ++ suffix).drop (1 + 3)
        = nibbleToHexChar dlc :: (encodeBytes (data.take dlc) ++ suffix) := by
      have hsplit : ('t' :: formatHex id 3 ++ [nibbleToHexChar dlc]
            ++ encodeBytes (data.take dlc) ++ suffix).drop (1 + 3)
          = (('t' :: formatHex id 3 ++ [nibbleToHexChar dlc]
              ++ encodeBytes (data.take dlc) ++ suffix).drop 1).drop 3 := by
        rw [List.drop_drop]
      rw [hsplit, hdrop1, List.append_assoc, List.append_assoc,
        List.drop_left' hA, List.singleton_append]
    have hparseA : parseHex (formatHex id 3) = id :=
      parseHex_formatHex 3 id (by omega) (by omega)
    unfold parseFrame
    dsimp only
    simp only [Bool.false_eq_true, not_false_eq_true, true_and, false_and,
      if_false, SLCAN_STD_ID_LEN, SLCAN_DLC_LEN]
    rw [if_neg (show ¬ (('t' :: formatHex id 3 ++ [nibbleToHexChar dlc]
        ++ encodeBytes (data.take dlc) ++ suffix).length < 1 + 3 + 1) by
      simp only [List.length_cons, List.length_append, hA, hC]
      omega)]
    rw [hidstr]
    rw [if_neg (show ¬ ¬ ((formatHex id 3).all isHexChar) by
      simp [formatHex_all_hex 3 id])]
    rw [hparseA]
    rw [if_neg (show ¬ (id > 0x7FF) by omega)]
    rw [hdrop4]
    dsimp only
    rw [if_neg (show ¬ ¬ ((isHexChar (nibbleToHexChar dlc)) = true) by
      simp [isHexChar_nibbleToHexChar dlc (by omega : dlc < 16)])]
    rw [hex_nibble_roundtrip dlc (by omega : dlc < 16)]
    rw [if_neg (show ¬ (dlc > 8) by omega)]
    rw [if_neg (show ¬ ((encodeBytes (data.take dlc) ++ suffix).length < dlc * 2) by
      simp only [List.length_append, hC]
      omega)]
    have hpd := parseDataBytes_encodeBytes (data.take dlc) suffix
      (fun b hb => hbytes b (List.mem_of_mem_take hb))
    rw [htake] at hpd
    rw [hpd]
    dsimp only
    rw [hdata]
  obtain ⟨tschars, hfmt2⟩ := hfmt
  exact ⟨_, hfmt2, hparse tschars⟩

/-- Witness for C2 at a concrete frame (id 0x123, dlc 2, data AB CD),
formatted with timestamps enabled into a 26-byte buffer. -/
theorem format_parse_roundtrip_std_witness :
    ∃ s, formatFrame true frameW 26 = some s
      ∧ parseFrame s false false = some { frameW with timestamp := 0 } :=
  format_parse_roundtrip_std frameW true 26 rfl rfl (by decide) (by decide)
    (by decide) (by decide) (by decide) (by decide)

end SpeeduinoR4
